import Mathlib

/-
Verification of the orbgen interactive payload-generator wizard.

The Go sources under src/internal (actions.go, forwarding.go, ui_model.go)
and src/unnamed (part_000: main; part_001: an alternative revision of the
UI model that drives the fee sub-form through a `huh` form) are embedded
shallowly below:

  * Go strings are embedded as `List Char` (except UI labels and error
    messages, which are only compared for equality and kept as `String`);
  * Go byte slices are embedded as `List Nat` with values below 256;
  * fallible Go functions return `Except String _`;
  * external collaborators (the orbiter payload-schema library, the list
    and textinput widgets, the huh form, and the repository code that is
    not under src/) are parameters gathered in the `Ext` structure, or
    definitions whose doc comments start with `Modelled from the spec:`.

The package-global `focusIndex` of the Go code is threaded through the
model as an extra field, since Lean state passing is explicit.
-/

namespace Orbgen

/-- ASCII fragment of Go `strings.TrimSpace` (all inputs handled by the
wizard are typed keystrokes, so only ASCII whitespace can occur). -/
def isSpaceChar (c : Char) : Bool := c == ' ' || c == '\t' || c == '\n' || c == '\r'

/-- Go `strings.TrimSpace`: remove leading and trailing whitespace. -/
def trimSpace (s : List Char) : List Char :=
  ((s.dropWhile isSpaceChar).reverse.dropWhile isSpaceChar).reverse

/-- Numeric value of a digit string, used by `parseUint`. -/
def digitsToNat (s : List Char) : Nat := s.foldl (fun acc c => acc * 10 + (c.toNat - 48)) 0

/-- Go `strconv.ParseUint(s, 10, bitSize)`: a non-empty all-digit base-10
string whose value fits in `bitSize` bits; anything else is an error. -/
def parseUint (s : List Char) (bitSize : Nat) : Option Nat :=
  if s = [] then none
  else if s.all Char.isDigit then
    if digitsToNat s < 2 ^ bitSize then some (digitsToNat s) else none
  else none

/-- The constant `BPSNormalizer` from actions.go (10000 basis points = 100%). -/
def BPSNormalizer : Int := 10000

/-- Error message of `validateBPS` for zero basis points. -/
def bpsZeroMsg : String := "fee basis point cannot be zero"

/-- Error message of `validateBPS` for basis points above `BPSNormalizer`. -/
def bpsTooLargeMsg : String := "fee basis point cannot be higher than 10000"

/-- `validateBPS` from actions.go: rejects `bps == 0` and `bps > BPSNormalizer`.
The Go argument is a signed `int`, embedded as `Int`. -/
def validateBPS (bps : Int) : Except String Unit :=
  if bps = 0 then .error bpsZeroMsg
  else if BPSNormalizer < bps then .error bpsTooLargeMsg
  else .ok ()

/-- `leftPadIfRequired` from forwarding.go: pad a byte slice on the left
with zero bytes up to 32 bytes; more than 32 bytes is an error. -/
def leftPadIfRequired (input : List Nat) : Except String (List Nat) :=
  if 32 < input.length then .error "input is too long; max 32 bytes"
  else if input.length = 32 then .ok input
  else .ok (List.replicate (32 - input.length) 0 ++ input)

/-- Lower-case hexadecimal digit for a value below 16. -/
def hexDigit (n : Nat) : Char := if n < 10 then Char.ofNat (48 + n) else Char.ofNat (87 + n)

/-- Value of a hexadecimal digit character (upper or lower case). -/
def hexDigitVal (c : Char) : Option Nat :=
  if '0' ≤ c ∧ c ≤ '9' then some (c.toNat - 48)
  else if 'a' ≤ c ∧ c ≤ 'f' then some (c.toNat - 87)
  else if 'A' ≤ c ∧ c ≤ 'F' then some (c.toNat - 55)
  else none

/-- Hexadecimal string representation of a byte sequence (lower case,
two digits per byte), used to state the cross-encoding claims. -/
def hexEncode : List Nat → List Char
  | [] => []
  | b :: bs => hexDigit (b / 16) :: hexDigit (b % 16) :: hexEncode bs

/-- Body of go-ethereum `hexutil.Decode` after the "0x" marker: an even
number of hex digits decodes pairwise to bytes; anything else errors. -/
def hexDecodeBody : List Char → Option (List Nat)
  | [] => some []
  | c1 :: c2 :: rest =>
    match hexDigitVal c1, hexDigitVal c2, hexDecodeBody rest with
    | some h, some l, some bs => some ((h * 16 + l) :: bs)
    | _, _, _ => none
  | _ => none

/-- Character `n` (below 64) of the standard base64 alphabet. -/
def b64Char (n : Nat) : Char :=
  if n < 26 then Char.ofNat (65 + n)
  else if n < 52 then Char.ofNat (97 + (n - 26))
  else if n < 62 then Char.ofNat (48 + (n - 52))
  else if n = 62 then '+'
  else '/'

/-- Value of a standard base64 alphabet character. -/
def b64Val (c : Char) : Option Nat :=
  if 'A' ≤ c ∧ c ≤ 'Z' then some (c.toNat - 65)
  else if 'a' ≤ c ∧ c ≤ 'z' then some (c.toNat - 97 + 26)
  else if '0' ≤ c ∧ c ≤ '9' then some (c.toNat - 48 + 52)
  else if c = '+' then some 62
  else if c = '/' then some 63
  else none

/-- Standard (padded) base64 representation of a byte sequence, used to
state the cross-encoding claims. -/
def base64Encode : List Nat → List Char
  | [] => []
  | [b1] => [b64Char (b1 / 4), b64Char (b1 % 4 * 16), '=', '=']
  | [b1, b2] => [b64Char (b1 / 4), b64Char (b1 % 4 * 16 + b2 / 16), b64Char (b2 % 16 * 4), '=']
  | b1 :: b2 :: b3 :: rest =>
    b64Char (b1 / 4) :: b64Char (b1 % 4 * 16 + b2 / 16) ::
      b64Char (b2 % 16 * 4 + b3 / 64) :: b64Char (b3 % 64) :: base64Encode rest

/-- Go `base64.StdEncoding.DecodeString`: four-character quanta, padding
required in the final quantum only (Go's newline skipping is elided, the
wizard's single-line inputs cannot contain newlines). -/
def base64Decode : List Char → Option (List Nat)
  | [] => some []
  | c1 :: c2 :: c3 :: c4 :: rest =>
    match b64Val c1, b64Val c2 with
    | some v1, some v2 =>
      if c3 = '=' then
        if c4 = '=' then (if rest = [] then some [v1 * 4 + v2 / 16] else none) else none
      else
        match b64Val c3 with
        | some v3 =>
          if c4 = '=' then
            if rest = [] then some [v1 * 4 + v2 / 16, v2 % 16 * 16 + v3 / 4] else none
          else
            match b64Val c4, base64Decode rest with
            | some v4, some tail =>
              some ((v1 * 4 + v2 / 16) :: (v2 % 16 * 16 + v3 / 4) :: (v3 % 4 * 64 + v4) :: tail)
            | _, _ => none
        | none => none
    | _, _ => none
  | _ => none

/-- Whether a string starts with the hex marker "0x". -/
def startsWith0x : List Char → Bool
  | '0' :: 'x' :: _ => true
  | _ => false

/-- `decodeHexOrBase64To32Bytes` from forwarding.go: inputs with the "0x"
marker decode as hexadecimal, all others as base64, then the result is
left-padded to 32 bytes. -/
def decodeHexOrBase64To32Bytes (input : List Char) : Except String (List Nat) :=
  if startsWith0x input then
    match hexDecodeBody (input.drop 2) with
    | none => .error "failed to decode hex"
    | some d => leftPadIfRequired d
  else
    match base64Decode input with
    | none => .error "failed to decode base64"
    | some d => leftPadIfRequired d

/-- UTF-8 bytes of one character (Go `[]byte(string)` conversion). -/
def utf8Bytes (c : Char) : List Nat :=
  let n := c.toNat
  if n < 128 then [n]
  else if n < 2048 then [192 + n / 64, 128 + n % 64]
  else if n < 65536 then [224 + n / 4096, 128 + n / 64 % 64, 128 + n % 64]
  else [240 + n / 262144, 128 + n / 4096 % 64, 128 + n / 64 % 64, 128 + n % 64]

/-- UTF-8 bytes of a string (Go `[]byte(string)` conversion). -/
def strBytes : List Char → List Nat
  | [] => []
  | c :: cs => utf8Bytes c ++ strBytes cs

/-- The action kinds of the orbiter `core` enumeration used by the wizard. -/
inductive ActionId
  | fee
  | swap
deriving DecidableEq, Repr

/-- One fee entry of the orbiter `action.FeeInfo` record. -/
structure FeeInfo where
  recipient : List Char
  basisPoints : Nat
deriving DecidableEq, Repr

/-- An orbiter `core.Action`: a kind plus its (externally set) attributes. -/
structure Action where
  id : ActionId
  attributes : Option (List FeeInfo)
deriving DecidableEq, Repr

/-- An orbiter `core.Forwarding` as produced by the external CCTP
constructor: protocol tag and the CCTP attribute record. -/
structure Forwarding where
  protocol : String
  destinationDomain : Nat
  mintRecipient : List Nat
  destinationCaller : List Nat
  passthroughPayload : List Nat
deriving DecidableEq, Repr

/-- State of a `huh` form (src/unnamed/part_001 drives the fee sub-form
through one): in progress, completed, or aborted. -/
inductive FormState
  | inProgress
  | completed
  | aborted
deriving DecidableEq, Repr

/-- The observable content of the `huh` fee form: its state and the two
field values read back with GetString/GetInt. -/
structure FeeForm where
  formState : FormState
  recipient : List Char
  basisPoints : Int
deriving DecidableEq, Repr

/-- A `bubbles/textinput` widget, reduced to its wizard-relevant content:
the entered value and whether the input has focus. -/
structure TextInput where
  value : List Char
  focused : Bool
deriving DecidableEq, Repr

/-- The `state` enumeration of ui_model.go (the src/unnamed/part_001
revision omits `internalForwardingInput`). -/
inductive UIState
  | actionSelection
  | feeActionInput
  | forwardingSelection
  | cctpForwardingInput
  | internalForwardingInput
deriving DecidableEq, Repr

/-- Keystroke events; `char c` is a printable character whose
`tea.KeyMsg.String()` is the character itself. -/
inductive Key
  | ctrlC
  | enter
  | tab
  | shiftTab
  | up
  | down
  | backspace
  | char (c : Char)
deriving DecidableEq, Repr

/-- Input events processed by `Update`: a keystroke, a window resize, or
any other message (cursor blink ticks and similar). -/
inductive Msg
  | key (k : Key)
  | windowSize (w h : Int)
  | blink
deriving DecidableEq, Repr

/-- Commands returned to the event loop: `quit` is `tea.Quit`; `panicked`
models a Go `panic` (the process terminates with a diagnostic); `none`
in `Option Cmd` stands for `nil` and for non-quitting widget commands. -/
inductive Cmd
  | quit
  | panicked (msg : String)
deriving DecidableEq, Repr

/-- The `Model` of ui_model.go. `listSel` is the title of the currently
selected list item (the only part of the list widget the wizard reads);
`focusIndex` threads the Go package-global of the same name; and
`feeActionForm` exists only in the src/unnamed/part_001 revision (it is
unused by the ui_model.go transition function). -/
structure Model where
  state : UIState
  listSel : String
  actionInputs : List TextInput
  forwardingInputs : List TextInput
  actions : List Action
  forwarding : Option Forwarding
  err : Option String
  payload : String
  windowWidth : Int
  windowHeight : Int
  focusIndex : Nat
  feeActionForm : FeeForm
deriving DecidableEq, Repr

/-- Canonical display name of the fee action kind (external enum `String()`). -/
def actionFeeTitle : String := "FEE"

/-- Canonical display name of the swap action kind (external enum `String()`). -/
def actionSwapTitle : String := "SWAP"

/-- The literal third item of the action-selection list. -/
def noMoreActionsTitle : String := "No more actions"

/-- Canonical display name of the CCTP protocol (external enum `String()`). -/
def protocolCCTPTitle : String := "CCTP"

/-- Canonical display name of the IBC protocol (external enum `String()`). -/
def protocolIBCTitle : String := "IBC"

/-- Canonical display name of the Hyperlane protocol (external enum `String()`). -/
def protocolHyperlaneTitle : String := "HYPERLANE"

/-- Canonical display name of the Internal protocol (external enum `String()`). -/
def protocolInternalTitle : String := "INTERNAL"

/-- External collaborators of the wizard, passed as parameters: the
orbiter payload-schema library (validators, constructors, the final
payload assembly of the repository file that is not under src/), the
random source of `testutil.RandomBytes`, the list widget (only the
selected title is observable), the `huh` form driver, and the Internal
forwarding submission (source not under src/, modelled from the spec:
a sub-form submission reads the drafts and the actions and either
produces the forwarding and payload or an error). -/
structure Ext where
  validateFeeAttributes : List FeeInfo → Except String Unit
  setFeeAttributes : Action → List FeeInfo → Except String Action
  validateAction : Action → Except String Unit
  newCCTPForwarding : Nat → List Nat → List Nat → List Nat → Except String Forwarding
  buildFinalPayload : Forwarding → List Action → Except String String
  randomBytes : Nat → List Nat
  listUpdate : Msg → String → String
  feeFormUpdate : Msg → FeeForm → FeeForm
  internalSubmit : List (List Char) → List Action → Except String (Forwarding × String)

/-- Value of input number `i` of a sub-form (Go indexes the slice
directly; the state machine only reaches these reads with the inputs
initialized, so the default is never observable). -/
def fieldVal (inputs : List TextInput) (i : Nat) : List Char := (inputs.getD i ⟨[], false⟩).value

/-- The fresh `huh` fee form installed by `initFeeActionForm`. -/
def initialFeeForm : FeeForm := ⟨.inProgress, [], 0⟩

/-- `InitialModel` from ui_model.go: action selection with the fee item
selected, empty action list, no forwarding, no error, empty payload. -/
def InitialModel : Model :=
  { state := .actionSelection
    listSel := actionFeeTitle
    actionInputs := []
    forwardingInputs := []
    actions := []
    forwarding := none
    err := none
    payload := ""
    windowWidth := 0
    windowHeight := 0
    focusIndex := 0
    feeActionForm := initialFeeForm }

/-- `initActionSelection` from actions.go: rebuild the action list (the
fee item selected first) and return to the action-selection state. -/
def initActionSelection (m : Model) : Model :=
  { m with listSel := actionFeeTitle, state := .actionSelection }

/-- `initFeeActionInput` from actions.go: two fresh inputs (recipient,
basis points), the first focused, and the package-global focus reset. -/
def initFeeActionInput (m : Model) : Model :=
  { m with actionInputs := [⟨[], true⟩, ⟨[], false⟩]
           state := .feeActionInput
           focusIndex := 0 }

/-- `initForwardingSelection` from forwarding.go: rebuild the protocol
list (the CCTP item selected first) and enter forwarding selection. -/
def initForwardingSelection (m : Model) : Model :=
  { m with listSel := protocolCCTPTitle, state := .forwardingSelection }

/-- `initCCTPForwardingInput` from forwarding.go: four fresh inputs
(domain, mint recipient, destination caller, passthrough payload), the
first focused, and the package-global focus reset. -/
def initCCTPForwardingInput (m : Model) : Model :=
  { m with forwardingInputs := [⟨[], true⟩, ⟨[], false⟩, ⟨[], false⟩, ⟨[], false⟩]
           state := .cctpForwardingInput
           focusIndex := 0 }

/-- Modelled from the spec: `initInternalForwardingInput` (its source
file is not under src/). Per the state table of the spec, choosing a
protocol enters that protocol's input state with a fresh draft. -/
def initInternalForwardingInput (m : Model) : Model :=
  { m with forwardingInputs := [⟨[], true⟩]
           state := .internalForwardingInput
           focusIndex := 0 }

/-- `processFeeAction` from actions.go: required-field checks, the
numeric parse, then the external validators in source order; the first
failure surfaces the corresponding error, success appends the action and
returns to action selection. -/
def processFeeAction (ext : Ext) (m : Model) : Model × Option Cmd :=
  let recipientAddr := trimSpace (fieldVal m.actionInputs 0)
  let basisPointsStr := trimSpace (fieldVal m.actionInputs 1)
  if recipientAddr = [] then ({ m with err := some "recipient address is required" }, none)
  else if basisPointsStr = [] then ({ m with err := some "basis points is required" }, none)
  else
    match parseUint basisPointsStr 32 with
    | none => ({ m with err := some "invalid basis points" }, none)
    | some basisPoints =>
      let feeAttr : List FeeInfo := [⟨recipientAddr, basisPoints⟩]
      match ext.validateFeeAttributes feeAttr with
      | .error e => ({ m with err := some ("invalid fee attributes: " ++ e) }, none)
      | .ok _ =>
        match ext.setFeeAttributes ⟨.fee, none⟩ feeAttr with
        | .error e => ({ m with err := some ("failed to set action attributes: " ++ e) }, none)
        | .ok feeAction =>
          match ext.validateAction feeAction with
          | .error e => ({ m with err := some ("invalid fee action: " ++ e) }, none)
          | .ok _ => (initActionSelection { m with actions := m.actions ++ [feeAction] }, none)

/-- Trimmed destination-domain draft of the CCTP sub-form (input 0). -/
def cctpDomainStr (m : Model) : List Char := trimSpace (fieldVal m.forwardingInputs 0)

/-- Trimmed mint-recipient draft of the CCTP sub-form (input 1). -/
def cctpMintRecipientStr (m : Model) : List Char := trimSpace (fieldVal m.forwardingInputs 1)

/-- Trimmed destination-caller draft of the CCTP sub-form (input 2). -/
def cctpDestCallerStr (m : Model) : List Char := trimSpace (fieldVal m.forwardingInputs 2)

/-- Trimmed passthrough-payload draft of the CCTP sub-form (input 3). -/
def cctpPassthroughStr (m : Model) : List Char := trimSpace (fieldVal m.forwardingInputs 3)

/-- The mint-recipient branch of `processCCTPForwarding`
(forwarding.go:151-161): the sentinel "r" takes 32 random bytes,
everything else goes through the byte codec. -/
def resolveMintRecipient (ext : Ext) (s : List Char) : Except String (List Nat) :=
  if s = ['r'] then .ok (ext.randomBytes 32) else decodeHexOrBase64To32Bytes s

/-- The destination-caller branch of `processCCTPForwarding`
(forwarding.go:163-173): the sentinel "r" takes 32 random bytes, a
non-empty value goes through the byte codec, an empty value stays nil. -/
def resolveDestCaller (ext : Ext) (s : List Char) : Except String (List Nat) :=
  if s = ['r'] then .ok (ext.randomBytes 32)
  else if s ≠ [] then decodeHexOrBase64To32Bytes s
  else .ok []

/-- Tail of `processCCTPForwarding` (forwarding.go:180-201): the external
CCTP constructor, then — with the forwarding already committed to the
model — the final payload assembly; only full success quits. -/
def cctpFinish (ext : Ext) (m : Model) (domain : Nat)
    (mintRecipient destCaller passthroughPayload : List Nat) : Model × Option Cmd :=
  match ext.newCCTPForwarding domain mintRecipient destCaller passthroughPayload with
  | .error e => ({ m with err := some ("failed to create CCTP forwarding: " ++ e) }, none)
  | .ok f =>
    let m1 := { m with forwarding := some f }
    match ext.buildFinalPayload f m1.actions with
    | .error e => ({ m1 with err := some ("failed to build finalPayload: " ++ e) }, none)
    | .ok p => ({ m1 with payload := p }, some .quit)

/-- `processCCTPForwarding` from forwarding.go: an empty domain returns
silently; then the domain parse, the mint-recipient checks, the optional
destination caller, the verbatim passthrough payload, and `cctpFinish`. -/
def processCCTPForwarding (ext : Ext) (m : Model) : Model × Option Cmd :=
  if cctpDomainStr m = [] then (m, none)
  else
    match parseUint (cctpDomainStr m) 32 with
    | none => ({ m with err := some "invalid destination domain" }, none)
    | some domain =>
      if cctpMintRecipientStr m = [] then
        ({ m with err := some "mint recipient cannot be empty" }, none)
      else
        match resolveMintRecipient ext (cctpMintRecipientStr m) with
        | .error e => ({ m with err := some ("invalid mint recipient: " ++ e) }, none)
        | .ok mintRecipient =>
          match resolveDestCaller ext (cctpDestCallerStr m) with
          | .error e => ({ m with err := some ("invalid destination caller: " ++ e) }, none)
          | .ok destCaller =>
            let passthroughPayload :=
              if cctpPassthroughStr m = [] then [] else strBytes (cctpPassthroughStr m)
            cctpFinish ext m domain mintRecipient destCaller passthroughPayload

/-- Modelled from the spec: `processInternalForwarding` (its source file
is not under src/). Per the state table, submitting a protocol sub-form
either succeeds — forwarding set, payload assembled, session done — or
fails leaving the input state with the error surfaced; it reads the
drafts and the action list and never mutates the text fields. -/
def processInternalForwarding (ext : Ext) (m : Model) : Model × Option Cmd :=
  match ext.internalSubmit (m.forwardingInputs.map (·.value)) m.actions with
  | .error e => ({ m with err := some e }, none)
  | .ok (f, p) => ({ m with forwarding := some f, payload := p }, some .quit)

/-- One `bubbles/textinput` update: a focused input appends a typed
character and handles backspace; an unfocused input ignores keys. -/
def textInputUpdate (t : TextInput) (msg : Msg) : TextInput :=
  if t.focused then
    match msg with
    | .key (.char c) => { t with value := t.value ++ [c] }
    | .key .backspace => { t with value := t.value.dropLast }
    | _ => t
  else t

/-- Focus exactly the input at index `fi`, counting from `i`. -/
def setFocusFrom (fi i : Nat) : List TextInput → List TextInput
  | [] => []
  | t :: ts => { t with focused := i == fi } :: setFocusFrom fi (i + 1) ts

/-- Focus exactly the input at index `fi`. -/
def setFocus (fi : Nat) (l : List TextInput) : List TextInput := setFocusFrom fi 0 l

/-- `updateForwardingInputs` from forwarding.go (and, modelled from the
spec, the missing `updateActionInputs`, which the spec describes with
the same navigation and editing behavior): Tab/Shift+Tab/Up/Down move
the focus within bounds, every other message reaches the inputs. -/
def updateInputs (inputs : List TextInput) (focusIndex : Nat) (msg : Msg) :
    List TextInput × Nat :=
  if inputs = [] then (inputs, focusIndex)
  else
    match msg with
    | .key .up | .key .shiftTab =>
      let fi := if 0 < focusIndex then focusIndex - 1 else focusIndex
      (setFocus fi inputs, fi)
    | .key .down | .key .tab =>
      let fi := if focusIndex < inputs.length - 1 then focusIndex + 1 else focusIndex
      (setFocus fi inputs, fi)
    | _ => (inputs.map (fun t => textInputUpdate t msg), focusIndex)

/-- `handleEnter` from ui_model.go: confirm the current screen. -/
def handleEnter (ext : Ext) (m : Model) : Model × Option Cmd :=
  match m.state with
  | .actionSelection =>
    if m.listSel = actionFeeTitle then (initFeeActionInput m, none)
    else if m.listSel = actionSwapTitle then
      (m, some (.panicked ("not implemented yet: " ++ actionSwapTitle)))
    else if m.listSel = noMoreActionsTitle then (initForwardingSelection m, none)
    else (m, none)
  | .feeActionInput => processFeeAction ext m
  | .forwardingSelection =>
    if m.listSel = protocolCCTPTitle then (initCCTPForwardingInput m, none)
    else if m.listSel = protocolIBCTitle then
      (m, some (.panicked ("not supported yet: " ++ protocolIBCTitle)))
    else if m.listSel = protocolHyperlaneTitle then
      (m, some (.panicked ("not implemented yet: " ++ protocolHyperlaneTitle)))
    else if m.listSel = protocolInternalTitle then (initInternalForwardingInput m, none)
    else (m, none)
  | .cctpForwardingInput => processCCTPForwarding ext m
  | .internalForwardingInput => processInternalForwarding ext m

/-- The per-state message dispatch at the bottom of ui_model.go `Update`:
selection states feed the list widget, input states feed the text inputs. -/
def dispatchMsg (ext : Ext) (m : Model) (msg : Msg) : Model × Option Cmd :=
  match m.state with
  | .actionSelection | .forwardingSelection =>
    ({ m with listSel := ext.listUpdate msg m.listSel }, none)
  | .feeActionInput =>
    let p := updateInputs m.actionInputs m.focusIndex msg
    ({ m with actionInputs := p.1, focusIndex := p.2 }, none)
  | .cctpForwardingInput | .internalForwardingInput =>
    let p := updateInputs m.forwardingInputs m.focusIndex msg
    ({ m with forwardingInputs := p.1, focusIndex := p.2 }, none)

/-- `Update` from ui_model.go: ctrl+c and the key "q" quit from every
state before any dispatch, enter confirms, a window resize stores the
dimensions, and everything else reaches the current screen's widgets. -/
def Update (ext : Ext) (m : Model) (msg : Msg) : Model × Option Cmd :=
  match msg with
  | .key .ctrlC => (m, some .quit)
  | .key (.char c) => if c = 'q' then (m, some .quit) else dispatchMsg ext m msg
  | .key .enter => handleEnter ext m
  | .windowSize w h => ({ m with windowWidth := w, windowHeight := h }, none)
  | _ => dispatchMsg ext m msg

/-- The session as a function of the processed event list, starting from
`InitialModel` (the single-threaded event loop of the spec). -/
def run (ext : Ext) (msgs : List Msg) : Model :=
  msgs.foldl (fun m msg => (Update ext m msg).1) InitialModel

/-- Go `uint32` conversion of a (possibly negative) `int`. -/
def uint32OfInt (i : Int) : Nat := (i % 4294967296).toNat

/-- `handleEnter` of the src/unnamed/part_001 revision: same as
ui_model.go minus the Internal protocol branch; the states of that
revision do not include `internalForwardingInput` (modeled as a no-op). -/
def handleEnterHuh (ext : Ext) (m : Model) : Model × Option Cmd :=
  match m.state with
  | .actionSelection =>
    if m.listSel = actionFeeTitle then (initFeeActionInput m, none)
    else if m.listSel = actionSwapTitle then
      (m, some (.panicked ("not implemented yet: " ++ actionSwapTitle)))
    else if m.listSel = noMoreActionsTitle then (initForwardingSelection m, none)
    else (m, none)
  | .feeActionInput => processFeeAction ext m
  | .forwardingSelection =>
    if m.listSel = protocolCCTPTitle then (initCCTPForwardingInput m, none)
    else if m.listSel = protocolIBCTitle then
      (m, some (.panicked ("not supported yet: " ++ protocolIBCTitle)))
    else if m.listSel = protocolHyperlaneTitle then
      (m, some (.panicked ("not implemented yet: " ++ protocolHyperlaneTitle)))
    else (m, none)
  | .cctpForwardingInput => processCCTPForwarding ext m
  | .internalForwardingInput => (m, none)

/-- The per-state dispatch of the src/unnamed/part_001 revision: its
state enumeration has no Internal input state, and its fee-input state is
intercepted before this switch, so both fall to the Go `panic` default. -/
def dispatchMsgHuh (ext : Ext) (m : Model) (msg : Msg) : Model × Option Cmd :=
  match m.state with
  | .actionSelection | .forwardingSelection =>
    ({ m with listSel := ext.listUpdate msg m.listSel }, none)
  | .cctpForwardingInput =>
    let p := updateInputs m.forwardingInputs m.focusIndex msg
    ({ m with forwardingInputs := p.1, focusIndex := p.2 }, none)
  | _ => (m, some (.panicked "unhandled state"))

/-- `Update` of the src/unnamed/part_001 revision: in the fee-input state
every message first drives the `huh` form; a completed form appends one
action built from the form values — the error of `SetAttributes` is
discarded by the source — and returns to action selection, an aborted
form just returns to action selection; every other state behaves as in
ui_model.go. -/
def UpdateHuh (ext : Ext) (m : Model) (msg : Msg) : Model × Option Cmd :=
  if m.state = .feeActionInput then
    let m1 := { m with feeActionForm := ext.feeFormUpdate msg m.feeActionForm }
    if m1.feeActionForm.formState = .completed then
      let attrs : List FeeInfo :=
        [⟨m1.feeActionForm.recipient, uint32OfInt m1.feeActionForm.basisPoints⟩]
      let temp : Action :=
        match ext.setFeeAttributes ⟨.fee, none⟩ attrs with
        | .ok a => a
        | .error _ => ⟨.fee, none⟩
      ({ m1 with state := .actionSelection
                 actions := m1.actions ++ [temp]
                 feeActionForm := initialFeeForm }, none)
    else if m1.feeActionForm.formState = .aborted then
      ({ m1 with state := .actionSelection, feeActionForm := initialFeeForm }, none)
    else (m1, none)
  else
    match msg with
    | .key .ctrlC => (m, some .quit)
    | .key (.char c) => if c = 'q' then (m, some .quit) else dispatchMsgHuh ext m msg
    | .key .enter => handleEnterHuh ext m
    | .windowSize w h => ({ m with windowWidth := w, windowHeight := h }, none)
    | _ => dispatchMsgHuh ext m msg

/-- The outcome of `main` (src/unnamed/part_000) after the event loop: a
normal run prints the final model's payload with `fmt.Println` and the
process exits 0; a run error exits 1 via `log.Fatal`. -/
inductive RunOutcome
  | finished (m : Model)
  | runError (e : String)

/-- Exit code and standard output of `main` (src/unnamed/part_000). -/
def mainResult : RunOutcome → Nat × String
  | .finished m => (0, m.payload ++ "\n")
  | .runError _ => (1, "")

/-- A benign instantiation of the external collaborators: validators
accept, the constructor fills the record, assembly produces "PAYLOAD",
the random source is constant. Used to instantiate universally
quantified theorems on concrete runs. -/
def extOk : Ext :=
  { validateFeeAttributes := fun _ => .ok ()
    setFeeAttributes := fun a attrs => .ok { a with attributes := some attrs }
    validateAction := fun _ => .ok ()
    newCCTPForwarding := fun d mr dc pp => .ok ⟨protocolCCTPTitle, d, mr, dc, pp⟩
    buildFinalPayload := fun _ _ => .ok "PAYLOAD"
    randomBytes := fun n => List.replicate n 7
    listUpdate := fun _ s => s
    feeFormUpdate := fun _ f => f
    internalSubmit := fun _ _ => .error "not supported" }

/-- Like `extOk` but the list widget moves the selection to the item
"No more actions" on a down key, so that concrete traces can navigate. -/
def extNav : Ext :=
  { extOk with listUpdate := fun msg s => if msg = .key .down then noMoreActionsTitle else s }

/-- Like `extNav` but the external payload encoder rejects the session
(the assembly failure the spec allows in its error taxonomy). -/
def extAsmFail : Ext :=
  { extNav with buildFinalPayload := fun _ _ => .error "rejected" }

/-- A session that has just entered the CCTP input screen: every draft
field is still empty. -/
def mEmptyDomain : Model := initCCTPForwardingInput InitialModel

/-- Events navigating from the start into the CCTP input screen:
select "No more actions", confirm, confirm the CCTP protocol. -/
def c3Trace : List Msg := [.key .down, .key .enter, .key .enter]

/-- Events navigating into the CCTP input screen and submitting a valid
draft: domain "0", mint recipient the random sentinel "r". -/
def c1Trace : List Msg :=
  [.key .down, .key .enter, .key .enter, .key (.char '0'), .key .tab, .key (.char 'r'),
    .key .enter]

/-- Like `extOk` but the huh form driver completes the form with
recipient "a" and 100 basis points on any message, while the external
attribute constructor rejects every record. -/
def extFormDone : Ext :=
  { extOk with
      feeFormUpdate := fun _ f =>
        { f with formState := .completed, recipient := ['a'], basisPoints := 100 }
      setFeeAttributes := fun _ _ => .error "constructor rejected" }

/-- A session that has just entered the fee-input state of the part_001
revision, with a fresh form. -/
def mFeeForm : Model := initFeeActionInput InitialModel

/-- A fee sub-form holding the spec's example draft: recipient "addr1"
and basis points "100". -/
def mFeeDraft : Model :=
  { initFeeActionInput InitialModel with
      actionInputs := [⟨['a', 'd', 'd', 'r', '1'], true⟩, ⟨['1', '0', '0'], false⟩] }

/-- Whether none of the characters of an input's value is the letter q. -/
def noQVal (t : TextInput) : Bool := t.value.all (fun c => c != 'q')

/-- Whether no draft field of the session contains the letter q. -/
def inputsNoQ (m : Model) : Bool :=
  m.actionInputs.all noQVal && m.forwardingInputs.all noQVal

/-- A CCTP input screen whose domain draft is "1" and whose remaining
fields are empty. -/
def mDomainOnly : Model :=
  { mEmptyDomain with
      forwardingInputs := [⟨['1'], true⟩, ⟨[], false⟩, ⟨[], false⟩, ⟨[], false⟩] }

/-- Claim C4, counterexample: the basis-points validator accepts the
negative value -5 (Go `int` is signed and only `bps == 0` and
`bps > 10000` are rejected), although -5 is not in (0, 10000]; so
"succeeds if and only if 0 < b <= 10000" fails over every integer. -/
theorem validateBPS_accepts_negative :
    validateBPS (-5) = Except.ok () ∧ ¬ (0 < (-5 : Int)) := by
  exact ⟨rfl, by decide⟩

/-- Claim C4, amended: for every integer b, `validateBPS` fails with the
zero error exactly when b = 0, fails with the too-large error exactly
when b > 10000, and succeeds exactly when b ≠ 0 and b ≤ 10000 (in
particular every negative b is accepted); the two errors are distinct. -/
theorem validateBPS_spec : ∀ b : Int,
    (validateBPS b = Except.ok () ↔ b ≠ 0 ∧ b ≤ 10000) ∧
    (validateBPS b = Except.error bpsZeroMsg ↔ b = 0) ∧
    (validateBPS b = Except.error bpsTooLargeMsg ↔ 10000 < b) ∧
    bpsZeroMsg ≠ bpsTooLargeMsg := by
  intro b
  unfold validateBPS BPSNormalizer
  split_ifs with h1 h2 <;>
    refine ⟨?_, ?_, ?_, by decide⟩ <;> simp [h1, bpsZeroMsg, bpsTooLargeMsg] <;> omega

/-- Claim C4, witness: the amended characterization applied at b = 200. -/
theorem validateBPS_spec_inst :
    (validateBPS 200 = Except.ok () ↔ (200 : Int) ≠ 0 ∧ (200 : Int) ≤ 10000) ∧
    (validateBPS 200 = Except.error bpsZeroMsg ↔ (200 : Int) = 0) ∧
    (validateBPS 200 = Except.error bpsTooLargeMsg ↔ (10000 : Int) < 200) ∧
    bpsZeroMsg ≠ bpsTooLargeMsg :=
  validateBPS_spec 200

/-- Padding a short byte sequence yields the zero padding followed by
the input. -/
theorem leftPadIfRequired_of_le (x : List Nat) (h : x.length ≤ 32) :
    leftPadIfRequired x = .ok (List.replicate (32 - x.length) 0 ++ x) := by
  unfold leftPadIfRequired
  split_ifs with h1 h2
  · omega
  · simp [h2]
  · rfl

/-- Claim C5: for a byte sequence of at most 32 bytes the padding step
returns 32 bytes whose trailing part is the input and whose leading
bytes are all zero; a longer input fails with the too-long error. -/
theorem leftPadIfRequired_spec : ∀ x : List Nat,
    (x.length ≤ 32 →
      leftPadIfRequired x = .ok (List.replicate (32 - x.length) 0 ++ x) ∧
      (List.replicate (32 - x.length) 0 ++ x).length = 32 ∧
      (List.replicate (32 - x.length) 0 ++ x).drop (32 - x.length) = x ∧
      ∀ b ∈ (List.replicate (32 - x.length) 0 ++ x).take (32 - x.length), b = 0) ∧
    (32 < x.length → leftPadIfRequired x = .error "input is too long; max 32 bytes") := by
  intro x
  constructor
  · intro h
    refine ⟨leftPadIfRequired_of_le x h, ?_, ?_, ?_⟩
    · simp; omega
    · rw [List.drop_left' (by simp)]
    · rw [List.take_left' (by simp)]
      intro b hb
      exact List.eq_of_mem_replicate hb
  · intro h
    unfold leftPadIfRequired
    rw [if_pos h]

/-- Claim C5, witness: the padding property applied to the two-byte
input [5, 6]. -/
theorem leftPadIfRequired_spec_inst :
    leftPadIfRequired [5, 6] = .ok (List.replicate (32 - [5, 6].length) 0 ++ [5, 6]) ∧
    (List.replicate (32 - [5, 6].length) 0 ++ [5, 6]).length = 32 ∧
    (List.replicate (32 - [5, 6].length) 0 ++ [5, 6]).drop (32 - [5, 6].length) = [5, 6] ∧
    ∀ b ∈ (List.replicate (32 - [5, 6].length) 0 ++ [5, 6]).take (32 - [5, 6].length), b = 0 :=
  (leftPadIfRequired_spec [5, 6]).1 (by decide)

/-- Claim C8, counterexample: the byte-codec function itself rejects the
sentinel "r" — "r" has no hex marker, and a single character is not a
valid base64 quantum — so "the address-like decoding operation of the
Byte Codec generates and returns 32 pseudo-random bytes" is false of the
codec: the sentinel is handled by `processCCTPForwarding` before the
codec is ever called. -/
theorem codec_fails_on_sentinel_r :
    decodeHexOrBase64To32Bytes ['r'] = .error "failed to decode base64" := rfl

/-- Claim C8, amended: for the sentinel input "r", each address-shaped
field of the CCTP sub-form (mint recipient and destination caller)
resolves to the 32 pseudo-random bytes of the external random source,
never a decode error — but this happens in the field-processing branches
of `processCCTPForwarding`, not inside the byte codec, which rejects
"r" as invalid base64. -/
theorem sentinel_r_yields_random32 : ∀ ext : Ext, (ext.randomBytes 32).length = 32 →
    (∃ r, resolveMintRecipient ext ['r'] = .ok r ∧ r.length = 32) ∧
    (∃ r, resolveDestCaller ext ['r'] = .ok r ∧ r.length = 32) ∧
    decodeHexOrBase64To32Bytes ['r'] = .error "failed to decode base64" := by
  intro ext h
  exact ⟨⟨_, rfl, h⟩, ⟨_, rfl, h⟩, rfl⟩

/-- Claim C8, witness: the sentinel behavior at the concrete collaborator
`extOk`, whose random source returns 32 constant bytes. -/
theorem sentinel_r_yields_random32_inst :
    (∃ r, resolveMintRecipient extOk ['r'] = .ok r ∧ r.length = 32) ∧
    (∃ r, resolveDestCaller extOk ['r'] = .ok r ∧ r.length = 32) ∧
    decodeHexOrBase64To32Bytes ['r'] = .error "failed to decode base64" :=
  sentinel_r_yields_random32 extOk (by decide)

/-- Hex digits round-trip through their character for values below 16. -/
theorem hexDigitVal_hexDigit : ∀ n : Fin 16, hexDigitVal (hexDigit n.val) = some n.val := by
  decide

/-- Base64 alphabet characters round-trip for values below 64. -/
theorem b64Val_b64Char : ∀ n : Fin 64, b64Val (b64Char n.val) = some n.val := by decide

/-- No base64 alphabet character is the padding character. -/
theorem b64Char_ne_pad : ∀ n : Fin 64, b64Char n.val ≠ '=' := by decide

/-- Hex decoding inverts the hex representation of a byte sequence. -/
theorem hexDecodeBody_hexEncode : ∀ bs : List Nat, (∀ b ∈ bs, b < 256) →
    hexDecodeBody (hexEncode bs) = some bs := by
  intro bs h
  induction bs with
  | nil => rfl
  | cons b bs ih =>
    have hb : b < 256 := h b (List.mem_cons_self _ _)
    have h1 := hexDigitVal_hexDigit ⟨b / 16, by omega⟩
    have h2 := hexDigitVal_hexDigit ⟨b % 16, by omega⟩
    have ih2 := ih fun x hx => h x (List.mem_cons_of_mem _ hx)
    simp only [hexEncode, hexDecodeBody] at h1 h2 ⊢
    rw [h1, h2, ih2]
    simp
    omega

/-- Induction in chunks of three bytes, matching the base64 quanta. -/
theorem chunk3Ind {motive : List Nat → Prop} (h0 : motive [])
    (h1 : ∀ a, motive [a]) (h2 : ∀ a b, motive [a, b])
    (h3 : ∀ a b c l, motive l → motive (a :: b :: c :: l)) : ∀ l, motive l
  | [] => h0
  | [a] => h1 a
  | [a, b] => h2 a b
  | a :: b :: c :: l => h3 a b c l (chunk3Ind h0 h1 h2 h3 l)

/-- Base64 decoding inverts the base64 representation of a byte sequence. -/
theorem base64Decode_base64Encode : ∀ bs : List Nat, (∀ b ∈ bs, b < 256) →
    base64Decode (base64Encode bs) = some bs := by
  intro bs
  induction bs using chunk3Ind with
  | h0 => intro _; rfl
  | h1 a =>
    intro h
    have ha : a < 256 := h a (by simp)
    have e1 := b64Val_b64Char ⟨a / 4, by omega⟩
    have e2 := b64Val_b64Char ⟨a % 4 * 16, by omega⟩
    simp only [base64Encode, base64Decode]
    rw [e1, e2]
    simp
    omega
  | h2 a b =>
    intro h
    have ha : a < 256 := h a (by simp)
    have hb : b < 256 := h b (by simp)
    have e1 := b64Val_b64Char ⟨a / 4, by omega⟩
    have e2 := b64Val_b64Char ⟨a % 4 * 16 + b / 16, by omega⟩
    have e3 := b64Val_b64Char ⟨b % 16 * 4, by omega⟩
    have ne3 := b64Char_ne_pad ⟨b % 16 * 4, by omega⟩
    simp only [base64Encode, base64Decode]
    rw [e1, e2]
    simp [ne3, e3]
    omega
  | h3 a b c l ih =>
    intro h
    have ha : a < 256 := h a (by simp)
    have hb : b < 256 := h b (by simp)
    have hc : c < 256 := h c (by simp)
    have e1 := b64Val_b64Char ⟨a / 4, by omega⟩
    have e2 := b64Val_b64Char ⟨a % 4 * 16 + b / 16, by omega⟩
    have e3 := b64Val_b64Char ⟨b % 16 * 4 + c / 64, by omega⟩
    have e4 := b64Val_b64Char ⟨c % 64, by omega⟩
    have ne3 := b64Char_ne_pad ⟨b % 16 * 4 + c / 64, by omega⟩
    have ne4 := b64Char_ne_pad ⟨c % 64, by omega⟩
    have ihl := ih fun x hx => h x (by simp [hx])
    simp only [base64Encode, base64Decode]
    rw [e1, e2]
    simp [ne3, e3, ne4, e4, ihl]
    omega

/-- Claim C9, counterexample: the base64 representation of the bytes
[211, 29, 0] is the string "0x0A", which the codec routes to the hex
branch, decoding it to the single byte 10 — not to [211, 29, 0] as the
hex representation of the same bytes does; so hex and base64
representations of the same bytes do not always decode identically. -/
theorem base64_encoding_caught_by_hex_branch :
    base64Encode [211, 29, 0] = ['0', 'x', '0', 'A'] ∧
    decodeHexOrBase64To32Bytes (base64Encode [211, 29, 0]) =
      .ok (List.replicate 31 0 ++ [10]) ∧
    decodeHexOrBase64To32Bytes ('0' :: 'x' :: hexEncode [211, 29, 0]) =
      .ok (List.replicate 29 0 ++ [211, 29, 0]) ∧
    List.replicate 31 0 ++ [10] ≠ List.replicate 29 0 ++ ([211, 29, 0] : List Nat) := by
  refine ⟨rfl, rfl, rfl, by decide⟩

/-- Claim C9, amended: for every byte sequence of at most 32 bytes whose
base64 representation does not itself start with the hex marker "0x",
decoding the 0x-prefixed hex representation and decoding the base64
representation agree, both yielding the left-padded 32-byte result;
inputs starting with "0x" are always decoded as hex and all others as
base64, so the equivalence fails exactly for the byte sequences whose
base64 representation begins with "0x". -/
theorem cross_encoding_decode_agree : ∀ bs : List Nat,
    (∀ b ∈ bs, b < 256) → bs.length ≤ 32 → startsWith0x (base64Encode bs) = false →
    decodeHexOrBase64To32Bytes ('0' :: 'x' :: hexEncode bs) =
      .ok (List.replicate (32 - bs.length) 0 ++ bs) ∧
    decodeHexOrBase64To32Bytes (base64Encode bs) =
      .ok (List.replicate (32 - bs.length) 0 ++ bs) := by
  intro bs hb hlen hpre
  constructor
  · unfold decodeHexOrBase64To32Bytes
    rw [show startsWith0x ('0' :: 'x' :: hexEncode bs) = true from rfl]
    rw [show ('0' :: 'x' :: hexEncode bs).drop 2 = hexEncode bs from rfl]
    simp only [if_true]
    rw [hexDecodeBody_hexEncode bs hb]
    exact leftPadIfRequired_of_le bs hlen
  · unfold decodeHexOrBase64To32Bytes
    rw [hpre]
    simp only [Bool.false_eq_true, if_false]
    rw [base64Decode_base64Encode bs hb]
    exact leftPadIfRequired_of_le bs hlen

/-- Claim C9, witness: the cross-encoding agreement at the bytes
[1, 2, 3], whose base64 representation "AQID" has no hex marker. -/
theorem cross_encoding_decode_agree_inst :
    decodeHexOrBase64To32Bytes ('0' :: 'x' :: hexEncode [1, 2, 3]) =
      .ok (List.replicate (32 - [1, 2, 3].length) 0 ++ [1, 2, 3]) ∧
    decodeHexOrBase64To32Bytes (base64Encode [1, 2, 3]) =
      .ok (List.replicate (32 - [1, 2, 3].length) 0 ++ [1, 2, 3]) :=
  cross_encoding_decode_agree [1, 2, 3] (by decide) (by decide) (by decide)

/-- Claim C2, counterexample: a CCTP draft whose destination domain is
empty fails its first check, but the submission does not surface that
check's specific error — it returns the model unchanged with no error
set at all. -/
theorem empty_domain_aborts_without_error :
    processCCTPForwarding extOk mEmptyDomain = (mEmptyDomain, none) ∧
    mEmptyDomain.err = none := ⟨rfl, rfl⟩

/-- Claim C3, counterexample: in the reachable session that has entered
the CCTP screen with all fields empty, the submit event (enter) fails —
no forwarding is produced — yet the session state is returned unchanged,
no error message becomes set, and the process does not terminate: the
failure is silently swallowed. -/
theorem empty_domain_failure_swallowed :
    (run extNav c3Trace).state = UIState.cctpForwardingInput ∧
    (run extNav c3Trace).err = none ∧
    (run extNav c3Trace).forwarding = none ∧
    Update extNav (run extNav c3Trace) (.key .enter) = (run extNav c3Trace, none) :=
  ⟨rfl, rfl, rfl, rfl⟩

/-- Claim C1, counterexample: with an external payload encoder that
rejects the session (an assembly failure the spec's error taxonomy
allows), the reachable trace that submits a valid CCTP draft ends in a
session whose forwarding field is set while the session is not done —
still in the CCTP input state, no payload, only the surfaced assembly
error — so a forwarding-set-but-not-done state is reachable and the
submission neither fully succeeded nor left the state unchanged. -/
theorem forwarding_set_without_done_reachable :
    (run extAsmFail c1Trace).forwarding =
      some ⟨protocolCCTPTitle, 0, List.replicate 32 7, [], []⟩ ∧
    (run extAsmFail c1Trace).state = UIState.cctpForwardingInput ∧
    (run extAsmFail c1Trace).payload = "" ∧
    (run extAsmFail c1Trace).err = some "failed to build finalPayload: rejected" :=
  ⟨rfl, rfl, rfl, rfl⟩

/-- Claim C7, counterexample: quitting at the initial screen exits the
process with code 0 and prints the empty payload followed by a newline —
the very same exit code a successfully completed session gets — so the
exit status does not reflect an aborted session. -/
theorem abort_exit_matches_success_exit :
    Update extOk InitialModel (.key (.char 'q')) = (InitialModel, some .quit) ∧
    mainResult (.finished InitialModel) = (0, "\n") ∧
    (mainResult (.finished { InitialModel with payload := "PAYLOAD" })).1 = 0 :=
  ⟨rfl, rfl, rfl⟩

/-- Claim C7, amended: in every state an explicit quit (ctrl+c or q)
immediately returns the model unchanged with the quit command, so no
payload is produced and the payload string stays as it was (empty in any
session that has not completed); the process then prints only the empty
payload line and exits with code 0 — the same exit code as a completed
session, so the exit status does not distinguish an aborted session. -/
theorem quit_keeps_payload_empty : ∀ (ext : Ext) (m : Model) (k : Key),
    k = Key.ctrlC ∨ k = Key.char 'q' →
    Update ext m (.key k) = (m, some .quit) ∧
    (m.payload = "" → mainResult (.finished m) = (0, "\n")) := by
  intro ext m k hk
  constructor
  · rcases hk with h | h <;> subst h <;> simp [Update]
  · intro hp
    simp [mainResult, hp]

/-- Claim C7, witness: the quit behavior at ctrl+c on the initial model. -/
theorem quit_keeps_payload_empty_inst :
    Update extOk InitialModel (.key Key.ctrlC) = (InitialModel, some .quit) ∧
    (InitialModel.payload = "" → mainResult (.finished InitialModel) = (0, "\n")) :=
  quit_keeps_payload_empty extOk InitialModel Key.ctrlC (Or.inl rfl)

/-- The fee submission never touches the draft inputs, the forwarding,
or the payload. -/
theorem processFeeAction_frame (ext : Ext) (m : Model) :
    (processFeeAction ext m).1.actionInputs = m.actionInputs ∧
    (processFeeAction ext m).1.forwardingInputs = m.forwardingInputs ∧
    (processFeeAction ext m).1.forwarding = m.forwarding ∧
    (processFeeAction ext m).1.payload = m.payload := by
  simp only [processFeeAction, initActionSelection]
  split_ifs <;> repeat' split
  all_goals exact ⟨rfl, rfl, rfl, rfl⟩

/-- The CCTP submission never touches the draft inputs, the action list,
or the state. -/
theorem processCCTPForwarding_frame (ext : Ext) (m : Model) :
    (processCCTPForwarding ext m).1.actionInputs = m.actionInputs ∧
    (processCCTPForwarding ext m).1.forwardingInputs = m.forwardingInputs ∧
    (processCCTPForwarding ext m).1.actions = m.actions ∧
    (processCCTPForwarding ext m).1.state = m.state := by
  simp only [processCCTPForwarding, cctpFinish]
  split_ifs <;> repeat' split
  all_goals exact ⟨rfl, rfl, rfl, rfl⟩

/-- The Internal submission never touches the draft inputs, the action
list, or the state. -/
theorem processInternalForwarding_frame (ext : Ext) (m : Model) :
    (processInternalForwarding ext m).1.actionInputs = m.actionInputs ∧
    (processInternalForwarding ext m).1.forwardingInputs = m.forwardingInputs ∧
    (processInternalForwarding ext m).1.actions = m.actions ∧
    (processInternalForwarding ext m).1.state = m.state := by
  unfold processInternalForwarding
  repeat' split
  all_goals exact ⟨rfl, rfl, rfl, rfl⟩

/-- The widget dispatch never touches the forwarding or the action list. -/
theorem dispatchMsg_frame (ext : Ext) (m : Model) (msg : Msg) :
    (dispatchMsg ext m msg).1.forwarding = m.forwarding ∧
    (dispatchMsg ext m msg).1.actions = m.actions := by
  unfold dispatchMsg
  cases m.state <;> exact ⟨rfl, rfl⟩

/-- The widget dispatch of the part_001 revision never touches the
forwarding or the action list. -/
theorem dispatchMsgHuh_frame (ext : Ext) (m : Model) (msg : Msg) :
    (dispatchMsgHuh ext m msg).1.forwarding = m.forwarding ∧
    (dispatchMsgHuh ext m msg).1.actions = m.actions := by
  unfold dispatchMsgHuh
  cases m.state <;> exact ⟨rfl, rfl⟩

/-- Confirming a screen changes the forwarding only from a protocol
input state. -/
theorem handleEnter_forwarding (ext : Ext) (m : Model) :
    (handleEnter ext m).1.forwarding = m.forwarding ∨
    (m.state = .cctpForwardingInput ∨ m.state = .internalForwardingInput) := by
  unfold handleEnter
  cases hs : m.state with
  | actionSelection =>
    left
    split_ifs <;> simp [initFeeActionInput, initForwardingSelection]
  | feeActionInput => exact Or.inl (processFeeAction_frame ext m).2.2.1
  | forwardingSelection =>
    left
    split_ifs <;> simp [initCCTPForwardingInput, initInternalForwardingInput]
  | cctpForwardingInput => exact Or.inr (Or.inl rfl)
  | internalForwardingInput => exact Or.inr (Or.inr rfl)


/-- Claim C1 (amended): forwarding is only ever assigned by the enter
event in a protocol input state; a CCTP submission either leaves the
forwarding unchanged and surfaces nothing or an error, or it commits the
forwarding, and then either the payload assembly also succeeds and the
session immediately quits, or the assembly fails and the session stays in
the input state with the error surfaced while the forwarding remains set —
so a forwarding-set-but-not-done state is reachable and further
submissions stay possible. -/
theorem cctp_forwarding_commit_frame :
    (∀ (ext : Ext) (m : Model) (msg : Msg),
      (Update ext m msg).1.forwarding = m.forwarding ∨
      (msg = .key .enter ∧
        (m.state = .cctpForwardingInput ∨ m.state = .internalForwardingInput))) ∧
    (∀ (ext : Ext) (m : Model),
      ((processCCTPForwarding ext m).1.forwarding = m.forwarding ∧
        (processCCTPForwarding ext m).2 = none) ∨
      ((processCCTPForwarding ext m).1.forwarding.isSome = true ∧
        (((processCCTPForwarding ext m).2 = some .quit ∧
            (processCCTPForwarding ext m).1.err = m.err) ∨
          ((processCCTPForwarding ext m).2 = none ∧
            (processCCTPForwarding ext m).1.err.isSome = true ∧
            (processCCTPForwarding ext m).1.state = m.state ∧
            (processCCTPForwarding ext m).1.payload = m.payload)))) := by
  constructor
  · intro ext m msg
    unfold Update
    cases msg with
    | key k =>
      cases k with
      | ctrlC => exact Or.inl rfl
      | enter =>
        rcases handleEnter_forwarding ext m with h | h
        · exact Or.inl h
        · exact Or.inr ⟨rfl, h⟩
      | char c =>
        dsimp only
        by_cases hc : c = 'q'
        · rw [if_pos hc]
          exact Or.inl rfl
        · rw [if_neg hc]
          exact Or.inl (dispatchMsg_frame ext m _).1
      | tab => exact Or.inl (dispatchMsg_frame ext m _).1
      | shiftTab => exact Or.inl (dispatchMsg_frame ext m _).1
      | up => exact Or.inl (dispatchMsg_frame ext m _).1
      | down => exact Or.inl (dispatchMsg_frame ext m _).1
      | backspace => exact Or.inl (dispatchMsg_frame ext m _).1
    | windowSize w h => exact Or.inl rfl
    | blink => exact Or.inl (dispatchMsg_frame ext m _).1
  · intro ext m
    simp only [processCCTPForwarding, cctpFinish]
    repeat' split
    all_goals simp

/-- Claim C2 (amended): the CCTP submission checks the draft in exactly
the order domain non-empty, domain parses as 32-bit unsigned, mint
recipient non-empty, mint recipient resolves, destination caller
resolves (through the codec only if non-empty), passthrough payload
verbatim — with two deviations forced by the code: an empty domain
aborts silently with no error at all, and an address field equal to the
sentinel "r" takes 32 random bytes instead of the codec. Every other
failing check aborts with its specific error, leaving the model — in
particular the forwarding — otherwise unchanged. -/
theorem processCCTPForwarding_error_order : ∀ (ext : Ext) (m : Model),
    (cctpDomainStr m = [] → processCCTPForwarding ext m = (m, none)) ∧
    (cctpDomainStr m ≠ [] → parseUint (cctpDomainStr m) 32 = none →
      processCCTPForwarding ext m =
        ({ m with err := some "invalid destination domain" }, none)) ∧
    (∀ d, parseUint (cctpDomainStr m) 32 = some d → cctpMintRecipientStr m = [] →
      processCCTPForwarding ext m =
        ({ m with err := some "mint recipient cannot be empty" }, none)) ∧
    (∀ d e, parseUint (cctpDomainStr m) 32 = some d → cctpMintRecipientStr m ≠ [] →
      resolveMintRecipient ext (cctpMintRecipientStr m) = .error e →
      processCCTPForwarding ext m =
        ({ m with err := some ("invalid mint recipient: " ++ e) }, none)) ∧
    (∀ d mr e, parseUint (cctpDomainStr m) 32 = some d → cctpMintRecipientStr m ≠ [] →
      resolveMintRecipient ext (cctpMintRecipientStr m) = .ok mr →
      resolveDestCaller ext (cctpDestCallerStr m) = .error e →
      processCCTPForwarding ext m =
        ({ m with err := some ("invalid destination caller: " ++ e) }, none)) ∧
    (∀ d mr dc, parseUint (cctpDomainStr m) 32 = some d → cctpMintRecipientStr m ≠ [] →
      resolveMintRecipient ext (cctpMintRecipientStr m) = .ok mr →
      resolveDestCaller ext (cctpDestCallerStr m) = .ok dc →
      processCCTPForwarding ext m =
        cctpFinish ext m d mr dc
          (if cctpPassthroughStr m = [] then [] else strBytes (cctpPassthroughStr m))) ∧
    (cctpMintRecipientStr m ≠ ['r'] →
      resolveMintRecipient ext (cctpMintRecipientStr m) =
        decodeHexOrBase64To32Bytes (cctpMintRecipientStr m)) ∧
    (cctpDestCallerStr m = [] → resolveDestCaller ext (cctpDestCallerStr m) = .ok []) ∧
    (cctpDestCallerStr m ≠ [] → cctpDestCallerStr m ≠ ['r'] →
      resolveDestCaller ext (cctpDestCallerStr m) =
        decodeHexOrBase64To32Bytes (cctpDestCallerStr m)) := by
  intro ext m
  refine ⟨?_, ?_, ?_, ?_, ?_, ?_, ?_, ?_, ?_⟩
  · intro h
    unfold processCCTPForwarding
    rw [if_pos h]
  · intro h hp
    unfold processCCTPForwarding
    rw [if_neg h, hp]
  · intro d hp he
    have h0 : cctpDomainStr m ≠ [] := by
      intro h
      rw [h] at hp
      simp [parseUint] at hp
    unfold processCCTPForwarding
    rw [if_neg h0, hp]
    simp only [if_pos he]
  · intro d e hp hne hmr
    have h0 : cctpDomainStr m ≠ [] := by
      intro h
      rw [h] at hp
      simp [parseUint] at hp
    unfold processCCTPForwarding
    rw [if_neg h0, hp]
    simp only [if_neg hne]
    rw [hmr]
  · intro d mr e hp hne hmr hdc
    have h0 : cctpDomainStr m ≠ [] := by
      intro h
      rw [h] at hp
      simp [parseUint] at hp
    unfold processCCTPForwarding
    rw [if_neg h0, hp]
    simp only [if_neg hne]
    rw [hmr, hdc]
  · intro d mr dc hp hne hmr hdc
    have h0 : cctpDomainStr m ≠ [] := by
      intro h
      rw [h] at hp
      simp [parseUint] at hp
    unfold processCCTPForwarding
    rw [if_neg h0, hp]
    simp only [if_neg hne]
    rw [hmr, hdc]
  · intro h
    unfold resolveMintRecipient
    rw [if_neg h]
  · intro h
    rw [h]
    rfl
  · intro h1 h2
    unfold resolveDestCaller
    rw [if_neg h2, if_pos h1]

/-- Claim C2, witness: submitting the draft whose domain is "1" and whose
mint recipient is empty aborts with the mint-recipient error. -/
theorem processCCTPForwarding_error_order_inst :
    processCCTPForwarding extOk mDomainOnly =
      ({ mDomainOnly with err := some "mint recipient cannot be empty" }, none) :=
  (processCCTPForwarding_error_order extOk mDomainOnly).2.2.1 1 rfl rfl

/-- Claim C3 (amended): across both UI revisions, every failing
operation either sets a visible error message or terminates — a CCTP,
fee or Internal submission failure surfaces its error, full success
quits, and selecting an unimplemented action kind or protocol panics —
with exactly two code-forced exceptions: a CCTP submission whose trimmed
destination domain is empty fails silently, returning the session
unchanged with no error and no command; and in the part_001 revision a
completed fee form whose external SetAttributes call fails has the error
discarded — an attribute-less action is appended with no error surfaced
and no termination. -/
theorem wizard_failure_visible_or_terminal :
    (∀ (ext : Ext) (m : Model),
      (cctpDomainStr m = [] ∧ processCCTPForwarding ext m = (m, none)) ∨
      (processCCTPForwarding ext m).1.err.isSome = true ∨
      (processCCTPForwarding ext m).2 = some .quit) ∧
    (∀ (ext : Ext) (m : Model),
      (processFeeAction ext m).1.err.isSome = true ∨
      ∃ a, (processFeeAction ext m).1.actions = m.actions ++ [a]) ∧
    (∀ (ext : Ext) (m : Model),
      (processInternalForwarding ext m).1.err.isSome = true ∨
      (processInternalForwarding ext m).2 = some .quit) ∧
    (∀ (ext : Ext) (m : Model),
      (handleEnter ext { m with state := .actionSelection, listSel := actionSwapTitle }).2 =
        some (.panicked ("not implemented yet: " ++ actionSwapTitle)) ∧
      (handleEnterHuh ext { m with state := .actionSelection, listSel := actionSwapTitle }).2 =
        some (.panicked ("not implemented yet: " ++ actionSwapTitle))) ∧
    (∀ (ext : Ext) (m : Model),
      (handleEnter ext { m with state := .forwardingSelection, listSel := protocolIBCTitle }).2 =
        some (.panicked ("not supported yet: " ++ protocolIBCTitle)) ∧
      (handleEnterHuh ext
          { m with state := .forwardingSelection, listSel := protocolIBCTitle }).2 =
        some (.panicked ("not supported yet: " ++ protocolIBCTitle))) ∧
    (∀ (ext : Ext) (m : Model),
      (handleEnter ext
          { m with state := .forwardingSelection, listSel := protocolHyperlaneTitle }).2 =
        some (.panicked ("not implemented yet: " ++ protocolHyperlaneTitle)) ∧
      (handleEnterHuh ext
          { m with state := .forwardingSelection, listSel := protocolHyperlaneTitle }).2 =
        some (.panicked ("not implemented yet: " ++ protocolHyperlaneTitle))) ∧
    (∀ (ext : Ext) (m : Model) (msg : Msg) (e : String), m.state = .feeActionInput →
      (ext.feeFormUpdate msg m.feeActionForm).formState = .completed →
      ext.setFeeAttributes ⟨.fee, none⟩
          [⟨(ext.feeFormUpdate msg m.feeActionForm).recipient,
            uint32OfInt (ext.feeFormUpdate msg m.feeActionForm).basisPoints⟩] = .error e →
      (UpdateHuh ext m msg).1.err = m.err ∧
      (UpdateHuh ext m msg).1.actions = m.actions ++ [⟨ActionId.fee, none⟩] ∧
      (UpdateHuh ext m msg).2 = none) := by
  refine ⟨?_, ?_, ?_, fun ext m => ⟨rfl, rfl⟩, fun ext m => ⟨rfl, rfl⟩,
    fun ext m => ⟨rfl, rfl⟩, ?_⟩
  · intro ext m
    by_cases h0 : cctpDomainStr m = []
    · left
      refine ⟨h0, ?_⟩
      unfold processCCTPForwarding
      rw [if_pos h0]
    · right
      simp only [processCCTPForwarding, cctpFinish]
      rw [if_neg h0]
      repeat' split
      all_goals simp
  · intro ext m
    simp only [processFeeAction, initActionSelection]
    split_ifs <;> repeat' split
    all_goals first
      | exact Or.inl rfl
      | exact Or.inr ⟨_, rfl⟩
  · intro ext m
    unfold processInternalForwarding
    split
    · exact Or.inl rfl
    · exact Or.inr rfl
  · intro ext m msg e hs hc hset
    simp only [UpdateHuh, if_pos hs]
    rw [if_pos hc, hset]
    exact ⟨rfl, rfl, rfl⟩

/-- Claim C3, witness: with the form driver completing the form and the
external constructor rejecting it, the completed fee submission of the
part_001 revision discards the error — no message, no termination, a
bare action appended. -/
theorem wizard_failure_visible_or_terminal_inst :
    (UpdateHuh extFormDone mFeeForm (.key .enter)).1.err = mFeeForm.err ∧
    (UpdateHuh extFormDone mFeeForm (.key .enter)).1.actions =
      mFeeForm.actions ++ [⟨ActionId.fee, none⟩] ∧
    (UpdateHuh extFormDone mFeeForm (.key .enter)).2 = none :=
  wizard_failure_visible_or_terminal.2.2.2.2.2.2 extFormDone mFeeForm (.key .enter)
    "constructor rejected" rfl rfl rfl

/-- Confirming a screen in the part_001 revision never changes the
action list outside the fee-input state. -/
theorem handleEnterHuh_actions (ext : Ext) (m : Model) (h : m.state ≠ .feeActionInput) :
    (handleEnterHuh ext m).1.actions = m.actions := by
  unfold handleEnterHuh
  cases hs : m.state with
  | actionSelection =>
    split_ifs <;> simp [initFeeActionInput, initForwardingSelection]
  | feeActionInput => exact absurd hs h
  | forwardingSelection =>
    split_ifs <;> simp [initCCTPForwardingInput]
  | cctpForwardingInput => exact (processCCTPForwarding_frame ext m).2.2.1
  | internalForwardingInput => rfl

/-- Claim C6, counterexample: in the part_001 revision a completed fee
form appends even when the external SetAttributes constructor rejects
the record — the error is discarded and an attribute-less action lands
on the list with no error surfaced — so a successful submission is not
the only way an Action is ever appended to the session's action list. -/
theorem append_despite_failed_constructor :
    extFormDone.setFeeAttributes ⟨ActionId.fee, none⟩ [⟨['a'], 100⟩] =
      .error "constructor rejected" ∧
    (UpdateHuh extFormDone mFeeForm (.key .enter)).1.actions =
      mFeeForm.actions ++ [⟨ActionId.fee, none⟩] ∧
    (UpdateHuh extFormDone mFeeForm (.key .enter)).1.err = none ∧
    (UpdateHuh extFormDone mFeeForm (.key .enter)).1.state = UIState.actionSelection ∧
    (UpdateHuh extFormDone mFeeForm (.key .enter)).2 = none :=
  ⟨rfl, rfl, rfl, rfl, rfl⟩

/-- Claim C6 (amended): every step of the part_001 Update either leaves
the session's action list unchanged, or — only from the fee-input state
— appends exactly one action at the end, keeping every previously
appended entry in place and in order, and returns the session to action
selection; a fee submission either surfaces an error with the list
untouched or appends exactly one action; and a submission whose drafts
are non-empty, whose basis points parse, and whose external validators
and constructor all succeed appends exactly the constructed action and
returns to action selection. A fee sub-form step is thus the only way an
Action is appended, but not necessarily a successful one: a completed
form whose external SetAttributes constructor fails still appends. -/
theorem fee_submit_append_spec :
    (∀ (ext : Ext) (m : Model) (msg : Msg),
      (UpdateHuh ext m msg).1.actions = m.actions ∨
      (m.state = .feeActionInput ∧ ∃ a,
        (UpdateHuh ext m msg).1.actions = m.actions ++ [a] ∧
        (UpdateHuh ext m msg).1.state = .actionSelection)) ∧
    (∀ (ext : Ext) (m : Model),
      (processFeeAction ext m).1.actions = m.actions ∨
      ∃ a, (processFeeAction ext m).1.actions = m.actions ++ [a] ∧
        (processFeeAction ext m).1.state = .actionSelection ∧
        (processFeeAction ext m).1.err = m.err) ∧
    (∀ (ext : Ext) (m : Model) (bp : Nat) (feeAction : Action),
      trimSpace (fieldVal m.actionInputs 0) ≠ [] →
      trimSpace (fieldVal m.actionInputs 1) ≠ [] →
      parseUint (trimSpace (fieldVal m.actionInputs 1)) 32 = some bp →
      ext.validateFeeAttributes [⟨trimSpace (fieldVal m.actionInputs 0), bp⟩] = .ok () →
      ext.setFeeAttributes ⟨.fee, none⟩
        [⟨trimSpace (fieldVal m.actionInputs 0), bp⟩] = .ok feeAction →
      ext.validateAction feeAction = .ok () →
      processFeeAction ext m =
        (initActionSelection { m with actions := m.actions ++ [feeAction] }, none)) := by
  refine ⟨?_, ?_, ?_⟩
  · intro ext m msg
    by_cases hfee : m.state = .feeActionInput
    · simp only [UpdateHuh, if_pos hfee]
      split_ifs
      · exact Or.inr ⟨hfee, _, rfl, rfl⟩
      · exact Or.inl rfl
      · exact Or.inl rfl
    · simp only [UpdateHuh, if_neg hfee]
      cases msg with
      | key k =>
        cases k with
        | ctrlC => exact Or.inl rfl
        | enter => exact Or.inl (handleEnterHuh_actions ext m hfee)
        | char c =>
          dsimp only
          by_cases hc : c = 'q'
          · rw [if_pos hc]
            exact Or.inl rfl
          · rw [if_neg hc]
            exact Or.inl (dispatchMsgHuh_frame ext m _).2
        | tab => exact Or.inl (dispatchMsgHuh_frame ext m _).2
        | shiftTab => exact Or.inl (dispatchMsgHuh_frame ext m _).2
        | up => exact Or.inl (dispatchMsgHuh_frame ext m _).2
        | down => exact Or.inl (dispatchMsgHuh_frame ext m _).2
        | backspace => exact Or.inl (dispatchMsgHuh_frame ext m _).2
      | windowSize w h => exact Or.inl rfl
      | blink => exact Or.inl (dispatchMsgHuh_frame ext m _).2
  · intro ext m
    simp only [processFeeAction, initActionSelection]
    split_ifs <;> repeat' split
    all_goals first
      | exact Or.inl rfl
      | exact Or.inr ⟨_, rfl, rfl, rfl⟩
  · intro ext m bp feeAction h1 h2 hp hva hset hvA
    simp only [processFeeAction, if_neg h1, if_neg h2, hp, hva, hset, hvA]

/-- Claim C6, witness: submitting the spec's example draft — recipient
"addr1", basis points "100" — through the benign collaborators appends
exactly one action carrying those attributes and returns the session to
action selection. -/
theorem fee_submit_append_spec_inst :
    processFeeAction extOk mFeeDraft =
      (initActionSelection
        { mFeeDraft with
            actions := mFeeDraft.actions ++
              [⟨ActionId.fee, some [⟨['a', 'd', 'd', 'r', '1'], 100⟩]⟩] }, none) :=
  fee_submit_append_spec.2.2 extOk mFeeDraft 100
    ⟨ActionId.fee, some [⟨['a', 'd', 'd', 'r', '1'], 100⟩]⟩
    (by decide) (by decide) rfl rfl rfl rfl

/-- Setting the focus does not change any input value. -/
theorem setFocusFrom_all_noQVal (fi : Nat) :
    ∀ (i : Nat) (l : List TextInput), (setFocusFrom fi i l).all noQVal = l.all noQVal := by
  intro i l
  induction l generalizing i with
  | nil => rfl
  | cons t ts ih => simp [setFocusFrom, noQVal, ih]

/-- A textinput update with any message other than the letter q preserves
the absence of q in the value. -/
theorem textInputUpdate_noQVal (t : TextInput) (msg : Msg)
    (hq : ∀ c, msg = .key (.char c) → c ≠ 'q') (ht : noQVal t = true) :
    noQVal (textInputUpdate t msg) = true := by
  unfold textInputUpdate
  split_ifs with hf
  · cases msg with
    | key k =>
      cases k with
      | char c =>
        have hc := hq c rfl
        simp only [noQVal, List.all_append, Bool.and_eq_true, List.all_cons, List.all_nil,
          Bool.and_true] at ht ⊢
        exact ⟨ht, by simpa using hc⟩
      | backspace =>
        rw [noQVal, List.all_eq_true] at ht ⊢
        intro x hx
        exact ht x ((List.dropLast_sublist t.value).subset hx)
      | ctrlC => exact ht
      | enter => exact ht
      | tab => exact ht
      | shiftTab => exact ht
      | up => exact ht
      | down => exact ht
    | windowSize w h => exact ht
    | blink => exact ht
  · exact ht

/-- The sub-form input update with any message other than the letter q
preserves the absence of q in every value. -/
theorem updateInputs_noQ (inputs : List TextInput) (fi : Nat) (msg : Msg)
    (hq : ∀ c, msg = .key (.char c) → c ≠ 'q') (h : inputs.all noQVal = true) :
    (updateInputs inputs fi msg).1.all noQVal = true := by
  have hmap : (inputs.map (fun t => textInputUpdate t msg)).all noQVal = true := by
    rw [List.all_map, List.all_eq_true]
    intro x hx
    rw [List.all_eq_true] at h
    exact textInputUpdate_noQVal x msg hq (h x hx)
  have hfocus : ∀ fi2, (setFocus fi2 inputs).all noQVal = true :=
    fun fi2 => (setFocusFrom_all_noQVal fi2 0 inputs).trans h
  by_cases he : inputs = []
  · unfold updateInputs
    rw [if_pos he]
    exact h
  · unfold updateInputs
    rw [if_neg he]
    cases msg with
    | key k =>
      cases k with
      | up => exact hfocus _
      | shiftTab => exact hfocus _
      | down => exact hfocus _
      | tab => exact hfocus _
      | ctrlC => exact hmap
      | enter => exact hmap
      | backspace => exact hmap
      | char c => exact hmap
    | windowSize w hh => exact hmap
    | blink => exact hmap

/-- Confirming a screen preserves the absence of q in every draft field
(sub-forms are re-initialized empty, submissions never write them). -/
theorem handleEnter_inputsNoQ (ext : Ext) (m : Model) (h : inputsNoQ m = true) :
    inputsNoQ (handleEnter ext m).1 = true := by
  have ha : m.actionInputs.all noQVal = true := by
    rw [inputsNoQ, Bool.and_eq_true] at h; exact h.1
  have hf : m.forwardingInputs.all noQVal = true := by
    rw [inputsNoQ, Bool.and_eq_true] at h; exact h.2
  unfold handleEnter
  cases hs : m.state with
  | actionSelection =>
    have h1 : inputsNoQ (initFeeActionInput m) = true := by
      rw [inputsNoQ, Bool.and_eq_true]
      exact ⟨rfl, hf⟩
    have h2 : inputsNoQ (initForwardingSelection m) = true := by
      rw [inputsNoQ, Bool.and_eq_true]
      exact ⟨ha, hf⟩
    split_ifs <;> first | exact h1 | exact h2 | exact h
  | feeActionInput =>
    have hfr := processFeeAction_frame ext m
    rw [inputsNoQ, Bool.and_eq_true, hfr.1, hfr.2.1]
    exact ⟨ha, hf⟩
  | forwardingSelection =>
    have h1 : inputsNoQ (initCCTPForwardingInput m) = true := by
      rw [inputsNoQ, Bool.and_eq_true]
      exact ⟨ha, rfl⟩
    have h2 : inputsNoQ (initInternalForwardingInput m) = true := by
      rw [inputsNoQ, Bool.and_eq_true]
      exact ⟨ha, rfl⟩
    split_ifs <;> first | exact h1 | exact h2 | exact h
  | cctpForwardingInput =>
    have hfr := processCCTPForwarding_frame ext m
    rw [inputsNoQ, Bool.and_eq_true, hfr.1, hfr.2.1]
    exact ⟨ha, hf⟩
  | internalForwardingInput =>
    have hfr := processInternalForwarding_frame ext m
    rw [inputsNoQ, Bool.and_eq_true, hfr.1, hfr.2.1]
    exact ⟨ha, hf⟩

/-- The widget dispatch with any message other than the letter q
preserves the absence of q in every draft field. -/
theorem dispatchMsg_inputsNoQ (ext : Ext) (m : Model) (msg : Msg)
    (hq : ∀ c, msg = .key (.char c) → c ≠ 'q') (h : inputsNoQ m = true) :
    inputsNoQ (dispatchMsg ext m msg).1 = true := by
  have ha : m.actionInputs.all noQVal = true := by
    rw [inputsNoQ, Bool.and_eq_true] at h; exact h.1
  have hf : m.forwardingInputs.all noQVal = true := by
    rw [inputsNoQ, Bool.and_eq_true] at h; exact h.2
  unfold dispatchMsg
  cases m.state with
  | actionSelection => exact h
  | forwardingSelection => exact h
  | feeActionInput =>
    rw [inputsNoQ, Bool.and_eq_true]
    exact ⟨updateInputs_noQ m.actionInputs m.focusIndex msg hq ha, hf⟩
  | cctpForwardingInput =>
    rw [inputsNoQ, Bool.and_eq_true]
    exact ⟨ha, updateInputs_noQ m.forwardingInputs m.focusIndex msg hq hf⟩
  | internalForwardingInput =>
    rw [inputsNoQ, Bool.and_eq_true]
    exact ⟨ha, updateInputs_noQ m.forwardingInputs m.focusIndex msg hq hf⟩

/-- One step of the wizard preserves the absence of q in every draft
field: the q keystroke quits before reaching any input, and no other
event can insert a q. -/
theorem update_inputsNoQ (ext : Ext) (m : Model) (msg : Msg) (h : inputsNoQ m = true) :
    inputsNoQ (Update ext m msg).1 = true := by
  unfold Update
  cases msg with
  | key k =>
    cases k with
    | ctrlC => exact h
    | enter => exact handleEnter_inputsNoQ ext m h
    | char c =>
      dsimp only
      by_cases hc : c = 'q'
      · rw [if_pos hc]
        exact h
      · rw [if_neg hc]
        refine dispatchMsg_inputsNoQ ext m _ ?_ h
        intro c2 he
        injection he with hk
        injection hk with hc2
        rw [← hc2]
        exact hc
    | tab => exact dispatchMsg_inputsNoQ ext m _ (fun c2 he => by simp at he) h
    | shiftTab => exact dispatchMsg_inputsNoQ ext m _ (fun c2 he => by simp at he) h
    | up => exact dispatchMsg_inputsNoQ ext m _ (fun c2 he => by simp at he) h
    | down => exact dispatchMsg_inputsNoQ ext m _ (fun c2 he => by simp at he) h
    | backspace => exact dispatchMsg_inputsNoQ ext m _ (fun c2 he => by simp at he) h
  | windowSize w hh => exact h
  | blink => exact dispatchMsg_inputsNoQ ext m _ (fun c2 he => by simp at he) h

/-- Every reachable session has the letter q in none of its draft fields. -/
theorem run_inputsNoQ (ext : Ext) (msgs : List Msg) : inputsNoQ (run ext msgs) = true := by
  have general : ∀ (msgs : List Msg) (m : Model), inputsNoQ m = true →
      inputsNoQ (msgs.foldl (fun m msg => (Update ext m msg).1) m) = true := by
    intro msgs
    induction msgs with
    | nil => intro m h; exact h
    | cons msg rest ih =>
      intro m h
      exact ih _ (update_inputsNoQ ext m msg h)
  exact general msgs InitialModel rfl

/-- Claim C10: in every state — the text-input states included — the
update step on the key event "q" returns the model unchanged with the
quit command, before the event reaches any text field; consequently no
reachable session, and hence no submitted field value, ever contains the
character q. -/
theorem q_key_quits_before_inputs :
    (∀ (ext : Ext) (m : Model), Update ext m (.key (.char 'q')) = (m, some .quit)) ∧
    (∀ (ext : Ext) (msgs : List Msg), inputsNoQ (run ext msgs) = true) :=
  ⟨fun _ _ => rfl, fun ext msgs => run_inputsNoQ ext msgs⟩

end Orbgen
